import Mathlib

/-!
Verification of `src/dashboard.py` (NYC taxi dashboard generator).

The script is a linear batch pipeline: a local cache resolver
(`ensure_local_files`, plus the zone-lookup download inside `load_data`),
an aggregation engine issuing three DuckDB queries
(`compute_hourly_circadian`, `compute_monthly_trend`,
`compute_night_destinations`), and a report composer
(`build_dashboard` / `write_dashboard`).

This file gives a shallow embedding of that pipeline:

* Trip records and zone-lookup rows are structures mirroring the columns
  the script reads (`tpep_pickup_datetime`, `tpep_dropoff_datetime`,
  `DOLocationID`, `passenger_count`; `LocationID`, `Zone`, `Borough`).
  Timestamps are seconds on a linear timeline (the script applies no
  time-zone normalization), so DuckDB's `EXTRACT('hour' ...)` is
  `t / 3600 % 24` and `DATE_TRUNC('day', ...)` is `t / 86400`.
* The SQL queries become pure list functions.  SQL `GROUP BY` groups
  by key; `ROW_NUMBER() OVER (... ORDER BY COUNT(*) DESC)` leaves the
  order of equal counts to the engine, so the embedding fixes one
  concrete tie order (the insertion sort below); every theorem proved
  about the top-8 selection holds for any such tie order.
* The filesystem cache becomes explicit state passing: a store of
  path/bytes pairs threaded through the resolver, together with a trace
  of the I/O events (directory creation, downloads, file writes) the
  script performs.
-/

/-- Bytes of a cached file (contents are opaque to the cache resolver). -/
abbrev Bytes := List Nat

/-- One taxi trip record, with the columns `dashboard.py` reads.
Timestamps are nullable in the parquet source, hence `Option`.
`passenger_count` is nullable and numeric; it is modelled exactly as `Rat`. -/
structure Trip where
  tpep_pickup_datetime : Option Nat
  tpep_dropoff_datetime : Option Nat
  DOLocationID : Nat
  passenger_count : Option Rat
deriving DecidableEq

/-- One row of the taxi-zone lookup table (`LocationID, Zone, Borough`). -/
structure ZoneRow where
  LocationID : Nat
  Zone : String
  Borough : String
deriving DecidableEq

/-- `EXTRACT('hour' FROM ts)` on a linear seconds timeline. -/
def hourOfTimestamp (t : Nat) : Nat := t / 3600 % 24

/-- `DATE_TRUNC('day', ts)` on a linear seconds timeline (day index). -/
def dayOfTimestamp (t : Nat) : Nat := t / 86400

/-- The `taxi_trips` view of `load_data`: the union of the monthly files
filtered by `tpep_pickup_datetime IS NOT NULL AND tpep_dropoff_datetime IS NOT NULL`. -/
def validTrips (trips : List Trip) : List Trip :=
  trips.filter fun t =>
    t.tpep_pickup_datetime.isSome && t.tpep_dropoff_datetime.isSome

/-- Pickup hour of a view row.  Inside the `taxi_trips` view the pickup
timestamp is never null, so the `getD 0` default is never exercised. -/
def pickupHourOf (t : Trip) : Nat := hourOfTimestamp (t.tpep_pickup_datetime.getD 0)

/-- Service day of a view row (same remark on the default). -/
def serviceDayOf (t : Trip) : Nat := dayOfTimestamp (t.tpep_pickup_datetime.getD 0)

/-- First occurrences of each element, in order (the distinct grouping keys
a SQL `GROUP BY` produces). -/
def distincts {α : Type} [DecidableEq α] (l : List α) : List α :=
  l.foldl (fun acc k => if k ∈ acc then acc else acc ++ [k]) []

/-- Insert into a `le`-sorted list, keeping it sorted. -/
def insertSorted {α : Type} (le : α → α → Bool) (a : α) : List α → List α
  | [] => [a]
  | b :: l => if le a b then a :: b :: l else b :: insertSorted le a l

/-- Insertion sort by a boolean relation (one deterministic realization of
the engine's `ORDER BY`). -/
def sortBy {α : Type} (le : α → α → Bool) : List α → List α
  | [] => []
  | a :: l => insertSorted le a (sortBy le l)

/-- Row of the hourly circadian aggregate
(`pickup_hour, trips, avg_passenger_count`). -/
structure HourlyRow where
  pickup_hour : Nat
  trips : Nat
  avg_passenger_count : Option Rat
deriving DecidableEq

/-- `AVG(passenger_count)`: mean over non-null values, `NULL` when the
group has no non-null value. -/
def avgPassenger (g : List Trip) : Option Rat :=
  let vals := g.filterMap Trip.passenger_count
  if vals.isEmpty then none else some (vals.sum / vals.length)

/-- `compute_hourly_circadian`: group the view by pickup hour, count and
average passengers per group, order ascending by hour.  Hours are always
in `0..23`, so walking `List.range 24` in order and skipping absent hours
realizes `GROUP BY 1 ORDER BY 1`. -/
def compute_hourly_circadian (trips : List Trip) : List HourlyRow :=
  let v := validTrips trips
  (List.range 24).filterMap fun h =>
    let g := v.filter fun t => pickupHourOf t == h
    if g.isEmpty then none
    else some { pickup_hour := h, trips := g.length, avg_passenger_count := avgPassenger g }

/-- Row of the daily trend aggregate (`service_day, trips`). -/
structure DailyRow where
  service_day : Nat
  trips : Nat
deriving DecidableEq

/-- `compute_monthly_trend`: truncate pickups to the day, group, count,
order ascending by day. -/
def compute_monthly_trend (trips : List Trip) : List DailyRow :=
  let v := validTrips trips
  let days := sortBy (fun a b => a ≤ b) (distincts (v.map serviceDayOf))
  days.map fun d =>
    { service_day := d, trips := (v.filter fun t => serviceDayOf t == d).length }

/-- Row of the nighttime hotspot result (`pickup_hour, zone_name, trips`). -/
structure NightRow where
  pickup_hour : Nat
  zone_name : String
  trips : Nat
deriving DecidableEq

/-- The night window predicate of `compute_night_destinations`:
`EXTRACT('hour' ...) >= 20 OR EXTRACT('hour' ...) <= 4`. -/
def nightWindow (h : Nat) : Bool := 20 ≤ h || h ≤ 4

/-- `COALESCE(z.Zone, CONCAT('Zone ', CAST(DOLocationID AS VARCHAR)))` after
the `LEFT JOIN` of trips against the lookup table on
`DOLocationID = LocationID`.  The lookup table has one row per identifier
(spec §3), so the join is a key lookup. -/
def zoneName (zones : List ZoneRow) (dol : Nat) : String :=
  match zones.find? (fun z => z.LocationID == dol) with
  | some z => z.Zone
  | none => "Zone " ++ toString dol

/-- Night-window view rows (the `WHERE` clause of the `ranked` CTE). -/
def nightRecords (trips : List Trip) : List Trip :=
  (validTrips trips).filter fun t => nightWindow (pickupHourOf t)

/-- Grouping key of the `ranked` CTE: `(pickup_hour, zone_name)`. -/
def tripKey (zones : List ZoneRow) (t : Trip) : Nat × String :=
  (pickupHourOf t, zoneName zones t.DOLocationID)

/-- The `ranked` CTE before ranking: one row per distinct
`(pickup_hour, zone_name)` with its `COUNT(*)`. -/
def nightGroups (trips : List Trip) (zones : List ZoneRow) : List NightRow :=
  let nr := nightRecords trips
  (distincts (nr.map (tripKey zones))).map fun k =>
    { pickup_hour := k.1, zone_name := k.2,
      trips := (nr.filter fun t => tripKey zones t == k).length }

/-- Descending order on trip counts (the `ORDER BY COUNT(*) DESC` of the
ranking window; ties are engine-chosen, here fixed by sort stability). -/
def countGe (a b : NightRow) : Bool := b.trips ≤ a.trips

/-- Night hours in ascending order, i.e. `[0, 1, 2, 3, 4, 20, 21, 22, 23]`. -/
def nightHours : List Nat := (List.range 24).filter nightWindow

/-- `compute_night_destinations`: per hour keep the 8 groups with highest
count (`ROW_NUMBER() ... <= 8`), then order by hour ascending and count
descending (`ORDER BY pickup_hour, trips DESC`). -/
def compute_night_destinations (trips : List Trip) (zones : List ZoneRow) : List NightRow :=
  let g := nightGroups trips zones
  nightHours.flatMap fun h =>
    (sortBy countGe (g.filter fun r => r.pickup_hour == h)).take 8

/-! ## Cache resolver, report composer, and the `main` pipeline as explicit state -/

/-- I/O events the script can perform, in program order. -/
inductive Ev where
  | mkdir (path : String)
  | download (url : String)
  | write (path : String)
deriving DecidableEq

/-- The local filesystem as a store of path/contents pairs; a later entry
for the same path shadows an earlier one. -/
abbrev FS := List (String × Bytes)

def TAXI_BASE_URL : String := "https://d37ci6vzurychx.cloudfront.net/trip-data"
def ZONE_LOOKUP_URL : String := "https://d37ci6vzurychx.cloudfront.net/misc/taxi_zone_lookup.csv"
def DEFAULT_MONTHS : List String := ["2025-01", "2025-02", "2025-03"]
def CACHE_DIR : String := "data/raw"
def ZONE_LOOKUP_FILE : String := "data/raw/taxi_zone_lookup.csv"

/-- Remote URL of one month's parquet file. -/
def monthUrl (month : String) : String :=
  TAXI_BASE_URL ++ "/yellow_tripdata_" ++ month ++ ".parquet"

/-- Cache path of one month's parquet file. -/
def monthDest (month : String) : String :=
  CACHE_DIR ++ "/yellow_tripdata_" ++ month ++ ".parquet"

/-- The per-month loop body of `ensure_local_files`: download to the cache
path only when no file exists there.  `remote` maps a URL to the bytes the
CDN would serve.  Returns the local paths, the updated store, and the
events performed. -/
def ensureMonths (remote : String → Bytes) :
    List String → FS → List String × FS × List Ev
  | [], fs => ([], fs, [])
  | m :: ms, fs =>
    let dest := monthDest m
    if (fs.lookup dest).isSome then
      let r := ensureMonths remote ms fs
      (dest :: r.1, r.2.1, r.2.2)
    else
      let fs1 : FS := (dest, remote (monthUrl m)) :: fs
      let r := ensureMonths remote ms fs1
      (dest :: r.1, r.2.1, Ev.download (monthUrl m) :: Ev.write dest :: r.2.2)

/-- `ensure_local_files`: create the cache directory, then resolve every
requested month. -/
def ensure_local_files (remote : String → Bytes) (months : List String) (fs : FS) :
    List String × FS × List Ev :=
  let r := ensureMonths remote months fs
  (r.1, r.2.1, Ev.mkdir CACHE_DIR :: r.2.2)

/-- The zone-lookup download inside `load_data`: fetch the lookup file only
when it is not already cached. -/
def ensureLookup (remote : String → Bytes) (fs : FS) : FS × List Ev :=
  if (fs.lookup ZONE_LOOKUP_FILE).isSome then (fs, [])
  else ((ZONE_LOOKUP_FILE, remote ZONE_LOOKUP_URL) :: fs,
        [Ev.download ZONE_LOOKUP_URL, Ev.write ZONE_LOOKUP_FILE])

/-- `load_data`: resolve the monthly files, then the lookup file.  Returns
the parquet paths, the updated store, and the events, in program order. -/
def load_data (remote : String → Bytes) (months : List String) (fs : FS) :
    List String × FS × List Ev :=
  let r := ensure_local_files remote months fs
  let z := ensureLookup remote r.2.1
  (r.1, z.1, r.2.2 ++ z.2)

/-- Contents of a cached file (the store always holds the paths read). -/
def readFile (fs : FS) (path : String) : Bytes := (fs.lookup path).getD []

/-- `read_parquet([...])`: union of the decoded monthly files.  `decT`
stands for the parquet decoding, opaque to the pipeline logic. -/
def datasetOf (decT : Bytes → List Trip) (fs : FS) (paths : List String) : List Trip :=
  paths.flatMap fun p => decT (readFile fs p)

/-- `read_csv_auto` on the lookup file, `decZ` standing for CSV decoding. -/
def zonesOf (decZ : Bytes → List ZoneRow) (fs : FS) : List ZoneRow :=
  decZ (readFile fs ZONE_LOOKUP_FILE)

/-- The heat-map panel of the dashboard: either a chart over the (sorted)
hotspot rows or the explicit "No nighttime trip data available." note. -/
inductive NightPanel where
  | heatmap (rows : List NightRow)
  | placeholder
deriving DecidableEq

/-- The composed dashboard figure: the three panels `build_dashboard`
adds (chart cosmetics dropped). -/
structure Dashboard where
  hourlySeries : List HourlyRow
  dailySeries : List DailyRow
  nightPanel : NightPanel
deriving DecidableEq

/-- Boolean order used by `night.sort_values(["pickup_hour", "trips"],
ascending=[True, False])` in `build_dashboard`. -/
def nightOrder (a b : NightRow) : Bool :=
  a.pickup_hour < b.pickup_hour || (a.pickup_hour == b.pickup_hour && b.trips ≤ a.trips)

/-- `build_dashboard`: renders the three tables; the heat-map cell is a
placeholder annotation exactly when the hotspot table is empty
(`if not night.empty`). -/
def build_dashboard (hourly : List HourlyRow) (monthly : List DailyRow)
    (night : List NightRow) : Dashboard :=
  { hourlySeries := hourly
    dailySeries := monthly
    nightPanel :=
      if night.isEmpty then NightPanel.placeholder
      else NightPanel.heatmap (sortBy nightOrder night) }

/-- The three aggregate tables one pipeline run produces. -/
structure Tables where
  hourly : List HourlyRow
  daily : List DailyRow
  night : List NightRow
deriving DecidableEq

/-- One run of the data pipeline (`load_data` plus the three queries):
returns the store after cache resolution, the I/O events, and the tables. -/
def runPipeline (remote : String → Bytes) (decT : Bytes → List Trip)
    (decZ : Bytes → List ZoneRow) (months : List String) (fs : FS) :
    FS × List Ev × Tables :=
  let r := load_data remote months fs
  let trips := datasetOf decT r.2.1 r.1
  let zones := zonesOf decZ r.2.1
  (r.2.1, r.2.2,
    { hourly := compute_hourly_circadian trips
      daily := compute_monthly_trend trips
      night := compute_night_destinations trips zones })

/-- Code-point ranges (inclusive) of the characters Python's `re` module
matches with `\d` on a `str` pattern: exactly the Unicode general
category Nd (decimal digits), ASCII `0-9` being only the first range. -/
def ndRanges : List (Nat × Nat) :=
  [(48, 57), (1632, 1641), (1776, 1785), (1984, 1993), (2406, 2415),
    (2534, 2543), (2662, 2671), (2790, 2799), (2918, 2927), (3046, 3055),
    (3174, 3183), (3302, 3311), (3430, 3439), (3558, 3567), (3664, 3673),
    (3792, 3801), (3872, 3881), (4160, 4169), (4240, 4249), (6112, 6121),
    (6160, 6169), (6470, 6479), (6608, 6617), (6784, 6793), (6800, 6809),
    (6992, 7001), (7088, 7097), (7232, 7241), (7248, 7257), (42528, 42537),
    (43216, 43225), (43264, 43273), (43472, 43481), (43504, 43513),
    (43600, 43609), (44016, 44025), (65296, 65305), (66720, 66729),
    (68912, 68921), (69734, 69743), (69872, 69881), (69942, 69951),
    (70096, 70105), (70384, 70393), (70736, 70745), (70864, 70873),
    (71248, 71257), (71360, 71369), (71472, 71481), (71904, 71913),
    (72016, 72025), (72784, 72793), (73040, 73049), (73120, 73129),
    (92768, 92777), (92864, 92873), (93008, 93017), (120782, 120831),
    (123200, 123209), (123632, 123641), (125264, 125273), (130032, 130041)]

/-- A Unicode decimal digit, i.e. a character `re.fullmatch(r"\d", c)`
accepts (any category-Nd digit, not just ASCII `0-9`). -/
def isUnicodeDigit (c : Char) : Bool :=
  ndRanges.any fun r => decide (r.1 ≤ c.toNat) && decide (c.toNat ≤ r.2)

/-- `re.fullmatch(r"\d{4}-\d{2}", value)`: four digits, a dash, two
digits, where `\d` matches any Unicode decimal digit (so month strings
written with, e.g., Arabic-Indic digits pass this validation). -/
def monthPattern (s : String) : Bool :=
  match s.data with
  | [a, b, c, d, dash, e, f] =>
    isUnicodeDigit a && isUnicodeDigit b && isUnicodeDigit c && isUnicodeDigit d &&
      dash == Char.ofNat 45 && isUnicodeDigit e && isUnicodeDigit f
  | _ => false

/-- The month pattern as the spec's words state it (glossary: a string of
the form `YYYY-MM`, four digits, a dash, two digits, with the digits read
as ASCII `0-9`).  Kept separate from `monthPattern`, the faithful embedding
of the source's Unicode-aware check, to state claim C7 as written. -/
def asciiMonthPattern (s : String) : Bool :=
  match s.data with
  | [a, b, c, d, dash, e, f] =>
    a.isDigit && b.isDigit && c.isDigit && d.isDigit &&
      dash == Char.ofNat 45 && e.isDigit && f.isDigit
  | _ => false

/-- `parse_args` for the `--months` flag: an absent flag yields the default
month list; a present flag yields exactly the values given (possibly none,
since `nargs="*"`). -/
def parse_args (cliMonths : Option (List String)) : List String :=
  cliMonths.getD DEFAULT_MONTHS

/-- `months = args.months or list(DEFAULT_MONTHS)` in `main`: an empty
(falsy) list falls back to the defaults. -/
def resolvedMonths (argMonths : List String) : List String :=
  if argMonths.isEmpty then DEFAULT_MONTHS else argMonths

/-- `Path.parent` of an output path (used by `write_dashboard` for
`output_path.parent.mkdir`). -/
def dirname (p : String) : String :=
  let parts := p.splitOn "/"
  if parts.length ≤ 1 then "." else String.intercalate "/" parts.dropLast

/-- `write_dashboard`: create the parent directory, then write the rendered
document, overwriting whatever was at the output path.  `render` stands for
the HTML serialization of the figure. -/
def write_dashboard (render : Dashboard → Bytes) (fig : Dashboard) (output : String)
    (fs : FS) : FS × List Ev :=
  ((output, render fig) :: fs, [Ev.mkdir (dirname output), Ev.write output])

/-- The script entry point `main` (named `mainRun` since Lean reserves `main`): parse arguments, validate every month against the `YYYY-MM`
pattern (raising `ValueError` before any I/O on the first mismatch), run
the pipeline, compose the dashboard and write it out.  Returns the events
performed together with either the error message or the final state. -/
def mainRun (remote : String → Bytes) (decT : Bytes → List Trip)
    (decZ : Bytes → List ZoneRow) (render : Dashboard → Bytes)
    (cliMonths : Option (List String)) (output : String) (fs : FS) :
    List Ev × Except String (FS × Dashboard) :=
  let months := resolvedMonths (parse_args cliMonths)
  if months.all monthPattern then
    let r := runPipeline remote decT decZ months fs
    let fig := build_dashboard r.2.2.hourly r.2.2.daily r.2.2.night
    let w := write_dashboard render fig output r.1
    (r.2.1 ++ w.2, Except.ok (w.1, fig))
  else ([], Except.error "Months must be provided in YYYY-MM format (e.g. 2025-01).")

/-! ## Helper lemmas: `distincts`, `sortBy`, grouping sums -/

/-- The step function of `distincts`. -/
def distinctsStep {α : Type} [DecidableEq α] (acc : List α) (k : α) : List α :=
  if k ∈ acc then acc else acc ++ [k]

theorem distincts_eq_foldl {α : Type} [DecidableEq α] (l : List α) :
    distincts l = l.foldl distinctsStep [] := rfl

theorem mem_foldl_distinctsStep {α : Type} [DecidableEq α] :
    ∀ (l acc : List α) (x : α), x ∈ l.foldl distinctsStep acc ↔ x ∈ acc ∨ x ∈ l := by
  intro l
  induction l with
  | nil => intro acc x; simp
  | cons a l ih =>
    intro acc x
    rw [List.foldl_cons, ih]
    unfold distinctsStep
    by_cases ha : a ∈ acc
    · simp only [if_pos ha, List.mem_cons]
      constructor
      · rintro (h | h)
        · exact Or.inl h
        · exact Or.inr (Or.inr h)
      · rintro (h | h | h)
        · exact Or.inl h
        · exact Or.inl (h ▸ ha)
        · exact Or.inr h
    · simp only [if_neg ha, List.mem_append, List.mem_singleton, List.mem_cons]
      tauto

theorem nodup_foldl_distinctsStep {α : Type} [DecidableEq α] :
    ∀ (l acc : List α), acc.Nodup → (l.foldl distinctsStep acc).Nodup := by
  intro l
  induction l with
  | nil => intro acc h; simpa using h
  | cons a l ih =>
    intro acc h
    rw [List.foldl_cons]
    apply ih
    unfold distinctsStep
    by_cases ha : a ∈ acc
    · simpa [if_pos ha] using h
    · rw [if_neg ha]
      exact List.Nodup.append h (List.nodup_singleton a) (by
        intro x hx hx'
        rw [List.mem_singleton] at hx'
        exact ha (hx' ▸ hx))

theorem mem_distincts {α : Type} [DecidableEq α] (l : List α) (x : α) :
    x ∈ distincts l ↔ x ∈ l := by
  rw [distincts_eq_foldl, mem_foldl_distinctsStep]
  simp

theorem nodup_distincts {α : Type} [DecidableEq α] (l : List α) :
    (distincts l).Nodup := by
  rw [distincts_eq_foldl]
  exact nodup_foldl_distinctsStep l [] List.nodup_nil

theorem insertSorted_perm {α : Type} (le : α → α → Bool) (a : α) :
    ∀ l : List α, List.Perm (insertSorted le a l) (a :: l) := by
  intro l
  induction l with
  | nil => simp [insertSorted]
  | cons b l ih =>
    unfold insertSorted
    by_cases h : le a b
    · rw [if_pos h]
    · rw [if_neg h]
      exact (ih.cons b).trans (List.Perm.swap a b l)

theorem sortBy_perm {α : Type} (le : α → α → Bool) :
    ∀ l : List α, List.Perm (sortBy le l) l := by
  intro l
  induction l with
  | nil => simp [sortBy]
  | cons a l ih =>
    unfold sortBy
    exact (insertSorted_perm le a (sortBy le l)).trans (ih.cons a)

theorem mem_sortBy {α : Type} (le : α → α → Bool) (l : List α) (x : α) :
    x ∈ sortBy le l ↔ x ∈ l :=
  (sortBy_perm le l).mem_iff

theorem pairwise_insertSorted {α : Type} (le : α → α → Bool)
    (htot : ∀ a b, le a b = true ∨ le b a = true)
    (htrans : ∀ a b c, le a b = true → le b c = true → le a c = true) (a : α) :
    ∀ l : List α, l.Pairwise (fun x y => le x y = true) →
      (insertSorted le a l).Pairwise (fun x y => le x y = true) := by
  intro l
  induction l with
  | nil => intro _; simp [insertSorted]
  | cons b l ih =>
    intro hp
    rw [List.pairwise_cons] at hp
    unfold insertSorted
    by_cases h : le a b = true
    · rw [if_pos h]
      refine List.Pairwise.cons ?_ (List.Pairwise.cons hp.1 hp.2)
      intro x hx
      rcases List.mem_cons.mp hx with rfl | hx
      · exact h
      · exact htrans a b x h (hp.1 x hx)
    · rw [if_neg h]
      refine List.Pairwise.cons ?_ (ih hp.2)
      intro x hx
      rcases List.mem_cons.mp ((insertSorted_perm le a l).mem_iff.mp hx) with rfl | h1
      · rcases htot x b with h' | h'
        · exact absurd h' h
        · exact h'
      · exact hp.1 x h1

theorem pairwise_sortBy {α : Type} (le : α → α → Bool)
    (htot : ∀ a b, le a b = true ∨ le b a = true)
    (htrans : ∀ a b c, le a b = true → le b c = true → le a c = true) :
    ∀ l : List α, (sortBy le l).Pairwise (fun x y => le x y = true) := by
  intro l
  induction l with
  | nil => simp [sortBy]
  | cons a l ih =>
    unfold sortBy
    exact pairwise_insertSorted le htot htrans a (sortBy le l) ih

theorem sum_map_add_nat {κ : Type} (d : List κ) (f g : κ → Nat) :
    (d.map fun k => f k + g k).sum = (d.map f).sum + (d.map g).sum := by
  induction d with
  | nil => simp
  | cons a d ih => simp [ih]; omega

theorem sum_indicator_zero {κ : Type} [DecidableEq κ] (c : κ) :
    ∀ d : List κ, c ∉ d → (d.map fun k => if c == k then (1 : Nat) else 0).sum = 0 := by
  intro d
  induction d with
  | nil => intro _; simp
  | cons a d ih =>
    intro hc
    have ha : c ≠ a := fun h => hc (h ▸ List.mem_cons_self a d)
    have hd : c ∉ d := fun h => hc (List.mem_cons_of_mem a h)
    simp only [List.map_cons, List.sum_cons, ih hd]
    simp [ha]

theorem sum_indicator_one {κ : Type} [DecidableEq κ] (c : κ) :
    ∀ d : List κ, d.Nodup → c ∈ d →
      (d.map fun k => if c == k then (1 : Nat) else 0).sum = 1 := by
  intro d
  induction d with
  | nil => intro _ h; simp at h
  | cons a d ih =>
    intro hnd hc
    rw [List.nodup_cons] at hnd
    rcases List.mem_cons.mp hc with rfl | hc
    · simp only [List.map_cons, List.sum_cons, beq_self_eq_true, if_pos rfl]
      rw [sum_indicator_zero c d hnd.1]
      simp
    · have ha : c ≠ a := fun h => hnd.1 (h ▸ hc)
      simp only [List.map_cons, List.sum_cons, ih hnd.2 hc]
      simp [ha]

/-- Summing per-key group sizes over a duplicate-free key list covering all
keys of `l` recovers the length of `l` (a `GROUP BY` partitions its input). -/
theorem sum_filter_length {α κ : Type} [DecidableEq κ] (key : α → κ) (d : List κ)
    (hnd : d.Nodup) :
    ∀ l : List α, (∀ x ∈ l, key x ∈ d) →
      (d.map fun k => (l.filter fun x => key x == k).length).sum = l.length := by
  intro l
  induction l with
  | nil =>
    intro _
    have : ∀ y ∈ d.map fun k => (([] : List α).filter fun x => key x == k).length, y = 0 := by
      intro y hy
      rcases List.mem_map.mp hy with ⟨k, _, rfl⟩
      simp
    simp [List.sum_eq_zero this]
  | cons a l ih =>
    intro hall
    have hmem : key a ∈ d := hall a (List.mem_cons_self a l)
    have hstep : (d.map fun k => ((a :: l).filter fun x => key x == k).length) =
        d.map fun k => (if key a == k then (1 : Nat) else 0) +
          (l.filter fun x => key x == k).length := by
      apply List.map_congr_left
      intro k _
      by_cases h : key a = k
      · simp [List.filter_cons, h]
        omega
      · simp [List.filter_cons, h]
    rw [hstep, sum_map_add_nat, sum_indicator_one (key a) d hnd hmem,
      ih fun x hx => hall x (List.mem_cons_of_mem a hx)]
    simp [Nat.add_comm]

/-! ## The hourly circadian aggregate (claim C2) -/

/-- The per-hour group of the hourly query. -/
def hourGroup (v : List Trip) (h : Nat) : List Trip :=
  v.filter fun t => pickupHourOf t == h

theorem compute_hourly_circadian_eq (trips : List Trip) :
    compute_hourly_circadian trips = (List.range 24).filterMap fun h =>
      if (hourGroup (validTrips trips) h).isEmpty then none
      else some { pickup_hour := h, trips := (hourGroup (validTrips trips) h).length,
                  avg_passenger_count := avgPassenger (hourGroup (validTrips trips) h) } := rfl

theorem hourly_rows_trips_sum (v : List Trip) :
    ∀ hs : List Nat,
      (((hs.filterMap fun h =>
          if (hourGroup v h).isEmpty then none
          else some { pickup_hour := h, trips := (hourGroup v h).length,
                      avg_passenger_count := avgPassenger (hourGroup v h) }).map
        HourlyRow.trips).sum) = (hs.map fun h => (hourGroup v h).length).sum := by
  intro hs
  induction hs with
  | nil => simp
  | cons h hs ih =>
    by_cases he : (hourGroup v h).isEmpty
    · have hzero : (hourGroup v h).length = 0 := by
        rw [List.isEmpty_iff] at he
        simp [he]
      simp only [List.filterMap_cons, if_pos he, List.map_cons, List.sum_cons, ih, hzero]
      omega
    · simp only [List.filterMap_cons, if_neg he, List.map_cons, List.sum_cons, ih]

theorem hourly_rows_hours_sublist (v : List Trip) :
    ∀ hs : List Nat,
      List.Sublist (((hs.filterMap fun h =>
          if (hourGroup v h).isEmpty then none
          else some { pickup_hour := h, trips := (hourGroup v h).length,
                      avg_passenger_count := avgPassenger (hourGroup v h) }).map
        HourlyRow.pickup_hour)) hs := by
  intro hs
  induction hs with
  | nil => simp
  | cons h hs ih =>
    by_cases he : (hourGroup v h).isEmpty
    · simp only [List.filterMap_cons, if_pos he]
      exact ih.cons h
    · simp only [List.filterMap_cons, if_neg he, List.map_cons]
      exact ih.cons₂ h

theorem pickupHourOf_lt_24 (t : Trip) : pickupHourOf t < 24 := by
  unfold pickupHourOf hourOfTimestamp
  omega

/-- C2, sum part, generic over the hour list. -/
theorem hourly_sum_eq (trips : List Trip) :
    ((compute_hourly_circadian trips).map HourlyRow.trips).sum = (validTrips trips).length := by
  rw [compute_hourly_circadian_eq, hourly_rows_trips_sum]
  have hall : ∀ x ∈ validTrips trips, pickupHourOf x ∈ List.range 24 := by
    intro x _
    exact List.mem_range.mpr (pickupHourOf_lt_24 x)
  exact sum_filter_length pickupHourOf (List.range 24) (List.nodup_range 24)
    (validTrips trips) hall

/-- C2: the hourly circadian aggregate has at most one row per hour, every
hour is in `[0, 23]`, and the trip counts sum to the number of records with
non-null pickup and drop-off timestamps. -/
theorem claim_C2_hourly_aggregate (trips : List Trip) :
    ((compute_hourly_circadian trips).map HourlyRow.pickup_hour).Nodup ∧
    (∀ r ∈ compute_hourly_circadian trips, r.pickup_hour ≤ 23) ∧
    ((compute_hourly_circadian trips).map HourlyRow.trips).sum = (validTrips trips).length := by
  refine ⟨?_, ?_, hourly_sum_eq trips⟩
  · rw [compute_hourly_circadian_eq]
    exact (hourly_rows_hours_sublist (validTrips trips) (List.range 24)).nodup
      (List.nodup_range 24)
  · intro r hr
    rw [compute_hourly_circadian_eq] at hr
    have : r.pickup_hour ∈ List.range 24 :=
      (hourly_rows_hours_sublist (validTrips trips) (List.range 24)).subset
        (List.mem_map_of_mem HourlyRow.pickup_hour hr)
    have := List.mem_range.mp this
    omega

/-- Witness for C2 at a one-trip dataset (pickup at hour 1). -/
theorem claim_C2_hourly_aggregate_witness :
    ({ pickup_hour := 1, trips := 1, avg_passenger_count := none } : HourlyRow).pickup_hour ≤ 23 :=
  (claim_C2_hourly_aggregate
      [{ tpep_pickup_datetime := some 3600, tpep_dropoff_datetime := some 7200,
         DOLocationID := 1, passenger_count := none }]).2.1 _ (by decide)

/-! ## The daily trend aggregate (claim C3) -/

/-- The per-day group of the daily query. -/
def dayGroup (v : List Trip) (d : Nat) : List Trip :=
  v.filter fun t => serviceDayOf t == d

/-- The sorted distinct service days of the view. -/
def serviceDays (v : List Trip) : List Nat :=
  sortBy (fun a b => a ≤ b) (distincts (v.map serviceDayOf))

theorem compute_monthly_trend_eq (trips : List Trip) :
    compute_monthly_trend trips = (serviceDays (validTrips trips)).map fun d =>
      { service_day := d, trips := (dayGroup (validTrips trips) d).length } := rfl

theorem serviceDays_nodup (v : List Trip) : (serviceDays v).Nodup := by
  unfold serviceDays
  exact (sortBy_perm _ (distincts (v.map serviceDayOf))).nodup_iff.mpr
    (nodup_distincts (v.map serviceDayOf))

theorem mem_serviceDays (v : List Trip) (x : Trip) (hx : x ∈ v) :
    serviceDayOf x ∈ serviceDays v := by
  rw [serviceDays, mem_sortBy, mem_distincts]
  exact List.mem_map_of_mem serviceDayOf hx

theorem serviceDays_pairwise_lt (v : List Trip) :
    (serviceDays v).Pairwise (fun a b => a < b) := by
  have hle : (serviceDays v).Pairwise (fun a b : Nat => a ≤ b) := by
    refine List.Pairwise.imp ?_ (pairwise_sortBy (fun a b : Nat => a ≤ b) ?_ ?_ _)
    · intro a b h
      exact of_decide_eq_true h
    · intro a b
      rcases Nat.le_total a b with h | h
      · exact Or.inl (decide_eq_true h)
      · exact Or.inr (decide_eq_true h)
    · intro a b c h1 h2
      exact decide_eq_true (Nat.le_trans (of_decide_eq_true h1) (of_decide_eq_true h2))
  have hne : (serviceDays v).Pairwise (fun a b : Nat => a ≠ b) := serviceDays_nodup v
  exact (hle.and hne).imp fun h => Nat.lt_of_le_of_ne h.1 h.2

/-- C3: the daily trend aggregate is strictly increasing in `service_day`
and its trip counts sum to the number of records with non-null pickup and
drop-off timestamps. -/
theorem claim_C3_daily_aggregate (trips : List Trip) :
    (compute_monthly_trend trips).Pairwise (fun a b => a.service_day < b.service_day) ∧
    ((compute_monthly_trend trips).map DailyRow.trips).sum = (validTrips trips).length := by
  constructor
  · rw [compute_monthly_trend_eq, List.pairwise_map]
    exact serviceDays_pairwise_lt (validTrips trips)
  · rw [compute_monthly_trend_eq, List.map_map]
    have : ((serviceDays (validTrips trips)).map fun d =>
        ((validTrips trips).filter fun t => serviceDayOf t == d).length).sum =
        (validTrips trips).length :=
      sum_filter_length serviceDayOf (serviceDays (validTrips trips))
        (serviceDays_nodup (validTrips trips)) (validTrips trips)
        (fun x hx => mem_serviceDays (validTrips trips) x hx)
    exact this

/-! ## The nighttime hotspot query (claims C1, C4, C6, C9) -/

/-- The rows the hotspot result keeps for one hour: its groups ranked by
descending count, cut at rank 8. -/
def hourBlock (g : List NightRow) (h : Nat) : List NightRow :=
  (sortBy countGe (g.filter fun r => r.pickup_hour == h)).take 8

theorem compute_night_destinations_eq (trips : List Trip) (zones : List ZoneRow) :
    compute_night_destinations trips zones =
      nightHours.flatMap (hourBlock (nightGroups trips zones)) := rfl

theorem nightHours_eq : nightHours = [0, 1, 2, 3, 4, 20, 21, 22, 23] := by decide

theorem nightHours_nodup : nightHours.Nodup := by
  rw [nightHours_eq]; decide

theorem countGe_eq_true_iff (a b : NightRow) : countGe a b = true ↔ b.trips ≤ a.trips := by
  simp [countGe]

theorem countGe_total (a b : NightRow) : countGe a b = true ∨ countGe b a = true := by
  rw [countGe_eq_true_iff, countGe_eq_true_iff]
  exact (Nat.le_total b.trips a.trips).imp id id

theorem countGe_trans (a b c : NightRow) (h1 : countGe a b = true) (h2 : countGe b c = true) :
    countGe a c = true := by
  rw [countGe_eq_true_iff] at *
  exact Nat.le_trans h2 h1

theorem mem_hourBlock (g : List NightRow) (h : Nat) (r : NightRow)
    (hr : r ∈ hourBlock g h) : r.pickup_hour = h ∧ r ∈ g := by
  have hs : r ∈ sortBy countGe (g.filter fun r => r.pickup_hour == h) :=
    (List.take_sublist 8 _).subset hr
  rw [mem_sortBy, List.mem_filter] at hs
  exact ⟨by simpa using hs.2, hs.1⟩

theorem hourBlock_length_le (g : List NightRow) (h : Nat) : (hourBlock g h).length ≤ 8 := by
  unfold hourBlock
  rw [List.length_take]
  exact Nat.min_le_left _ _

theorem filter_flatMap_hour_le (g : List NightRow) :
    ∀ hs : List Nat, hs.Nodup → ∀ h : Nat,
      ((hs.flatMap (hourBlock g)).filter fun r => r.pickup_hour == h).length ≤ 8 := by
  intro hs
  induction hs with
  | nil => intro _ h; simp
  | cons h' hs ih =>
    intro hnd h
    rw [List.nodup_cons] at hnd
    rw [List.flatMap_cons, List.filter_append, List.length_append]
    by_cases hh : h' = h
    · subst hh
      have htail : ((hs.flatMap (hourBlock g)).filter fun r => r.pickup_hour == h') = [] := by
        rw [List.filter_eq_nil_iff]
        intro r hr
        rcases List.mem_flatMap.mp hr with ⟨h'', hh'', hrb⟩
        have := (mem_hourBlock g h'' r hrb).1
        simp only [beq_iff_eq, this]
        intro he
        exact hnd.1 (he ▸ hh'')
      rw [htail]
      have : ((hourBlock g h').filter fun r => r.pickup_hour == h').length ≤
          (hourBlock g h').length := List.length_filter_le _ _
      have := hourBlock_length_le g h'
      simp only [List.length_nil]
      omega
    · have hhead : ((hourBlock g h').filter fun r => r.pickup_hour == h) = [] := by
        rw [List.filter_eq_nil_iff]
        intro r hr
        have := (mem_hourBlock g h' r hr).1
        simp [this, hh]
      rw [hhead]
      have := ih hnd.2 h
      simp only [List.length_nil]
      omega

/-- C1: every hotspot row's hour is one of `{20, 21, 22, 23, 0, 1, 2, 3, 4}`,
and no hour contributes more than 8 rows. -/
theorem claim_C1_hotspot_shape (trips : List Trip) (zones : List ZoneRow) :
    (∀ r ∈ compute_night_destinations trips zones,
      r.pickup_hour ∈ ([20, 21, 22, 23, 0, 1, 2, 3, 4] : List Nat)) ∧
    ∀ h : Nat,
      ((compute_night_destinations trips zones).filter
        fun r => r.pickup_hour == h).length ≤ 8 := by
  constructor
  · intro r hr
    rw [compute_night_destinations_eq] at hr
    rcases List.mem_flatMap.mp hr with ⟨h', hh', hrb⟩
    have := (mem_hourBlock _ h' r hrb).1
    rw [nightHours_eq] at hh'
    rw [this]
    simp at hh' ⊢
    omega
  · intro h
    rw [compute_night_destinations_eq]
    exact filter_flatMap_hour_le (nightGroups trips zones) nightHours nightHours_nodup h

/-- Witness for C1 at a one-trip dataset (pickup at hour 20, zone id 5). -/
theorem claim_C1_hotspot_shape_witness :
    ({ pickup_hour := 20, zone_name := "Zone 5", trips := 1 } : NightRow).pickup_hour ∈
      ([20, 21, 22, 23, 0, 1, 2, 3, 4] : List Nat) :=
  (claim_C1_hotspot_shape
      [{ tpep_pickup_datetime := some 72000, tpep_dropoff_datetime := some 72060,
         DOLocationID := 5, passenger_count := none }] []).1 _ (by decide)

theorem mem_nightGroups_elim (trips : List Trip) (zones : List ZoneRow) (r : NightRow)
    (hr : r ∈ nightGroups trips zones) :
    ∃ t ∈ nightRecords trips,
      r.pickup_hour = pickupHourOf t ∧ r.zone_name = zoneName zones t.DOLocationID := by
  unfold nightGroups at hr
  rcases List.mem_map.mp hr with ⟨k, hk, rfl⟩
  rw [mem_distincts] at hk
  rcases List.mem_map.mp hk with ⟨t, ht, rfl⟩
  exact ⟨t, ht, rfl, rfl⟩

theorem mem_nightGroups_hour (trips : List Trip) (zones : List ZoneRow) (r : NightRow)
    (hr : r ∈ nightGroups trips zones) : r.pickup_hour ∈ nightHours := by
  rcases mem_nightGroups_elim trips zones r hr with ⟨t, ht, hhr, _⟩
  unfold nightRecords at ht
  rw [List.mem_filter] at ht
  rw [hhr]
  exact List.mem_filter.mpr ⟨List.mem_range.mpr (pickupHourOf_lt_24 t), ht.2⟩

theorem hourBlock_subset_result (trips : List Trip) (zones : List ZoneRow) (h : Nat)
    (hh : h ∈ nightHours) (r : NightRow)
    (hr : r ∈ hourBlock (nightGroups trips zones) h) :
    r ∈ compute_night_destinations trips zones := by
  rw [compute_night_destinations_eq]
  exact List.mem_flatMap.mpr ⟨h, hh, hr⟩

theorem result_mem_block (trips : List Trip) (zones : List ZoneRow) (r : NightRow)
    (hr : r ∈ compute_night_destinations trips zones) :
    r ∈ hourBlock (nightGroups trips zones) r.pickup_hour := by
  rw [compute_night_destinations_eq] at hr
  rcases List.mem_flatMap.mp hr with ⟨h', hh', hrb⟩
  have hhr := (mem_hourBlock _ h' r hrb).1
  rw [hhr]
  exact hrb

/-- C9: every hotspot row kept for an hour has a trip count at least that
of every `(hour, zone)` group of the same hour the ranking excluded. -/
theorem claim_C9_top8_dominate (trips : List Trip) (zones : List ZoneRow) (h : Nat)
    (kept dropped : NightRow)
    (hkept : kept ∈ compute_night_destinations trips zones)
    (hkh : kept.pickup_hour = h)
    (hgrp : dropped ∈ nightGroups trips zones)
    (hdh : dropped.pickup_hour = h)
    (hex : dropped ∉ compute_night_destinations trips zones) :
    dropped.trips ≤ kept.trips := by
  have hks : kept ∈
      (sortBy countGe ((nightGroups trips zones).filter fun r => r.pickup_hour == h)).take 8 := by
    have hb := result_mem_block trips zones kept hkept
    rw [hkh] at hb
    exact hb
  have hds : dropped ∈
      sortBy countGe ((nightGroups trips zones).filter fun r => r.pickup_hour == h) := by
    rw [mem_sortBy, List.mem_filter]
    exact ⟨hgrp, by simp [hdh]⟩
  have hhn : h ∈ nightHours := hdh ▸ mem_nightGroups_hour trips zones dropped hgrp
  have hdnt : dropped ∉
      (sortBy countGe ((nightGroups trips zones).filter fun r => r.pickup_hour == h)).take 8 :=
    fun hmem => hex (hourBlock_subset_result trips zones h hhn dropped hmem)
  have hdd : dropped ∈
      (sortBy countGe ((nightGroups trips zones).filter fun r => r.pickup_hour == h)).drop 8 := by
    have hsplit := List.take_append_drop 8
      (sortBy countGe ((nightGroups trips zones).filter fun r => r.pickup_hour == h))
    have hms : dropped ∈
        (sortBy countGe ((nightGroups trips zones).filter fun r => r.pickup_hour == h)).take 8 ++
        (sortBy countGe ((nightGroups trips zones).filter fun r => r.pickup_hour == h)).drop 8 := by
      rw [hsplit]
      exact hds
    rcases List.mem_append.mp hms with h1 | h1
    · exact absurd h1 hdnt
    · exact h1
  have hpw : ((sortBy countGe
      ((nightGroups trips zones).filter fun r => r.pickup_hour == h)).take 8 ++
      (sortBy countGe
      ((nightGroups trips zones).filter fun r => r.pickup_hour == h)).drop 8).Pairwise
      (fun a b => countGe a b = true) := by
    rw [List.take_append_drop]
    exact pairwise_sortBy countGe countGe_total countGe_trans _
  exact (countGe_eq_true_iff kept dropped).mp
    ((List.pairwise_append.mp hpw).2.2 kept hks dropped hdd)

/-- Nine night trips at hour 20, one per drop-off zone id 1..9 (so one
group per zone, and the rank-8 cut must exclude one group). -/
def nineNightTrips : List Trip :=
  (List.range 9).map fun i =>
    { tpep_pickup_datetime := some (72000 + i), tpep_dropoff_datetime := some 0,
      DOLocationID := i + 1, passenger_count := none }

/-- Witness for C9 on `nineNightTrips`: the excluded ninth group's count is
dominated by a kept row's count. -/
theorem claim_C9_top8_dominate_witness :
    ({ pickup_hour := 20, zone_name := "Zone 9", trips := 1 } : NightRow).trips ≤
    ({ pickup_hour := 20, zone_name := "Zone 1", trips := 1 } : NightRow).trips :=
  claim_C9_top8_dominate nineNightTrips [] 20 _ _
    (by decide) (by decide) (by decide) (by decide) (by decide)

theorem nightRecords_subset (trips : List Trip) (t : Trip) (ht : t ∈ nightRecords trips) :
    t ∈ trips := by
  unfold nightRecords at ht
  rw [List.mem_filter] at ht
  unfold validTrips at ht
  exact (List.mem_filter.mp ht.1).1

/-- C6: when no drop-off location id of the dataset matches any lookup row,
every hotspot row's zone name is the synthesized `"Zone <id>"` placeholder
for some record's drop-off location id. -/
theorem claim_C6_fallback_zone_names (trips : List Trip) (zones : List ZoneRow)
    (hmiss : ∀ t ∈ trips, ∀ z ∈ zones, z.LocationID ≠ t.DOLocationID) :
    ∀ r ∈ compute_night_destinations trips zones,
      ∃ t ∈ trips, r.zone_name = "Zone " ++ toString t.DOLocationID := by
  intro r hr
  have hb := result_mem_block trips zones r hr
  have hg := (mem_hourBlock _ _ r hb).2
  rcases mem_nightGroups_elim trips zones r hg with ⟨t, ht, _, hzn⟩
  have htr : t ∈ trips := nightRecords_subset trips t ht
  have hfind : zones.find? (fun z => z.LocationID == t.DOLocationID) = none := by
    rw [List.find?_eq_none]
    intro z hz
    simp [hmiss t htr z hz]
  refine ⟨t, htr, ?_⟩
  rw [hzn]
  unfold zoneName
  rw [hfind]

/-- Witness for C6: one night trip to the unknown zone id 7, with a lookup
table that only knows id 1. -/
theorem claim_C6_fallback_zone_names_witness :
    ∃ t ∈ [({ tpep_pickup_datetime := some 72000, tpep_dropoff_datetime := some 1,
              DOLocationID := 7, passenger_count := none } : Trip)],
      ({ pickup_hour := 20, zone_name := "Zone 7", trips := 1 } : NightRow).zone_name =
        "Zone " ++ toString t.DOLocationID :=
  claim_C6_fallback_zone_names
    [{ tpep_pickup_datetime := some 72000, tpep_dropoff_datetime := some 1,
       DOLocationID := 7, passenger_count := none }]
    [{ LocationID := 1, Zone := "Newark Airport", Borough := "EWR" }]
    (by decide) _ (by decide)

/-- C4: with no record's pickup hour in the night window, the hotspot query
returns the empty table and the composed dashboard shows the "no data"
placeholder in the heat-map cell. -/
theorem claim_C4_empty_night_window (trips : List Trip) (zones : List ZoneRow)
    (hno : ∀ t ∈ trips, ∀ ts : Nat, t.tpep_pickup_datetime = some ts →
      nightWindow (hourOfTimestamp ts) = false) :
    compute_night_destinations trips zones = [] ∧
    (build_dashboard (compute_hourly_circadian trips) (compute_monthly_trend trips)
      (compute_night_destinations trips zones)).nightPanel = NightPanel.placeholder := by
  have hnr : nightRecords trips = [] := by
    unfold nightRecords
    rw [List.filter_eq_nil_iff]
    intro t ht
    unfold validTrips at ht
    rw [List.mem_filter] at ht
    obtain ⟨ht1, ht2⟩ := ht
    cases hts : t.tpep_pickup_datetime with
    | none => simp [hts] at ht2
    | some ts =>
      have hfalse := hno t ht1 ts hts
      unfold pickupHourOf
      rw [hts]
      simp [hfalse]
  have hng : nightGroups trips zones = [] := by
    unfold nightGroups
    rw [hnr]
    rfl
  have hres : compute_night_destinations trips zones = [] := by
    rw [compute_night_destinations_eq, hng]
    rfl
  refine ⟨hres, ?_⟩
  rw [hres]
  rfl

/-- Witness for C4: a single mid-morning trip (hour 10). -/
theorem claim_C4_empty_night_window_witness :
    compute_night_destinations
      [{ tpep_pickup_datetime := some 36000, tpep_dropoff_datetime := some 36060,
         DOLocationID := 3, passenger_count := none }] [] = [] :=
  (claim_C4_empty_night_window
    [{ tpep_pickup_datetime := some 36000, tpep_dropoff_datetime := some 36060,
       DOLocationID := 3, passenger_count := none }] []
    (by
      intro t ht ts hts
      simp only [List.mem_singleton] at ht
      subst ht
      simp only [Option.some.injEq] at hts
      subst hts
      decide)).1

/-! ## Cache resolver lemmas (claims C5, C7, C8, C10) -/

theorem lookup_cons_self (k : String) (v : Bytes) (fs : FS) :
    List.lookup k ((k, v) :: fs) = some v := by
  simp [List.lookup_cons]

theorem lookup_cons_ne (p k : String) (v : Bytes) (fs : FS) (h : p ≠ k) :
    List.lookup p ((k, v) :: fs) = List.lookup p fs := by
  rw [List.lookup_cons, beq_eq_false_iff_ne.mpr h]

theorem lookup_cons_isSome (p k : String) (v : Bytes) (fs : FS)
    (h : (fs.lookup p).isSome = true) :
    (List.lookup p ((k, v) :: fs)).isSome = true := by
  by_cases hpk : p = k
  · subst hpk
    rw [lookup_cons_self]
    rfl
  · rw [lookup_cons_ne p k v fs hpk]
    exact h

theorem ensureMonths_paths (remote : String → Bytes) :
    ∀ (months : List String) (fs : FS),
      (ensureMonths remote months fs).1 = months.map monthDest := by
  intro months
  induction months with
  | nil => intro fs; rfl
  | cons m ms ih =>
    intro fs
    simp only [ensureMonths]
    by_cases hc : (fs.lookup (monthDest m)).isSome = true
    · rw [if_pos hc]
      simp [ih]
    · rw [if_neg hc]
      simp [ih]

theorem ensureMonths_preserves (remote : String → Bytes) :
    ∀ (months : List String) (fs : FS) (p : String) (b : Bytes),
      fs.lookup p = some b → (ensureMonths remote months fs).2.1.lookup p = some b := by
  intro months
  induction months with
  | nil => intro fs p b h; exact h
  | cons m ms ih =>
    intro fs p b h
    simp only [ensureMonths]
    by_cases hc : (fs.lookup (monthDest m)).isSome = true
    · rw [if_pos hc]
      exact ih fs p b h
    · rw [if_neg hc]
      apply ih
      have hne : p ≠ monthDest m := fun he => hc (by rw [← he, h]; rfl)
      rw [lookup_cons_ne p (monthDest m) _ fs hne]
      exact h

theorem ensureMonths_preserves_isSome (remote : String → Bytes) (months : List String)
    (fs : FS) (p : String) (h : (fs.lookup p).isSome = true) :
    ((ensureMonths remote months fs).2.1.lookup p).isSome = true := by
  rcases Option.isSome_iff_exists.mp h with ⟨b, hb⟩
  rw [ensureMonths_preserves remote months fs p b hb]
  rfl

theorem ensureMonths_present (remote : String → Bytes) :
    ∀ (months : List String) (fs : FS) (m : String), m ∈ months →
      ((ensureMonths remote months fs).2.1.lookup (monthDest m)).isSome = true := by
  intro months
  induction months with
  | nil => intro fs m hm; simp at hm
  | cons m' ms ih =>
    intro fs m hm
    simp only [ensureMonths]
    by_cases hc : (fs.lookup (monthDest m')).isSome = true
    · rw [if_pos hc]
      rcases List.mem_cons.mp hm with rfl | hm'
      · exact ensureMonths_preserves_isSome remote ms fs (monthDest m) hc
      · exact ih fs m hm'
    · rw [if_neg hc]
      rcases List.mem_cons.mp hm with rfl | hm'
      · apply ensureMonths_preserves_isSome
        rw [lookup_cons_self]
        rfl
      · exact ih _ m hm'

theorem ensureMonths_skip (remote : String → Bytes) :
    ∀ (months : List String) (fs : FS),
      (∀ m ∈ months, (fs.lookup (monthDest m)).isSome = true) →
      ensureMonths remote months fs = (months.map monthDest, fs, []) := by
  intro months
  induction months with
  | nil => intro fs _; rfl
  | cons m ms ih =>
    intro fs hall
    simp only [ensureMonths]
    rw [if_pos (hall m (List.mem_cons_self m ms))]
    rw [ih fs fun m' hm' => hall m' (List.mem_cons_of_mem m hm')]
    rfl

theorem monthUrl_inj {m m' : String} (h : monthUrl m = monthUrl m') : m = m' := by
  unfold monthUrl at h
  have hd := congrArg String.data h
  simp only [String.data_append] at hd
  exact String.ext (List.append_cancel_left (List.append_cancel_right hd))

theorem monthUrl_ne_zone (m : String) : monthUrl m ≠ ZONE_LOOKUP_URL := by
  intro h
  have hlen := congrArg String.length h
  unfold monthUrl at hlen
  rw [String.length_append, String.length_append] at hlen
  have h1 : (TAXI_BASE_URL ++ "/yellow_tripdata_").length = 64 := by decide
  have h2 : (".parquet" : String).length = 8 := by decide
  have h3 : ZONE_LOOKUP_URL.length = 63 := by decide
  rw [h1, h2, h3] at hlen
  omega

theorem ensureMonths_no_refetch (remote : String → Bytes) :
    ∀ (months : List String) (fs : FS) (m : String),
      (fs.lookup (monthDest m)).isSome = true →
      Ev.download (monthUrl m) ∉ (ensureMonths remote months fs).2.2 := by
  intro months
  induction months with
  | nil => intro fs m _ hmem; simp [ensureMonths] at hmem
  | cons m' ms ih =>
    intro fs m h hmem
    simp only [ensureMonths] at hmem
    by_cases hc : (fs.lookup (monthDest m')).isSome = true
    · rw [if_pos hc] at hmem
      exact ih fs m h hmem
    · rw [if_neg hc] at hmem
      rcases List.mem_cons.mp hmem with he | hmem'
    
      · have hu : monthUrl m = monthUrl m' := by
          injection he
        have := monthUrl_inj hu
        subst this
        exact hc h
      · rcases List.mem_cons.mp hmem' with he | hmem''
        · simp at he
        · exact ih _ m (lookup_cons_isSome _ _ _ fs h) hmem''

theorem ensureLookup_present (remote : String → Bytes) (fs : FS) :
    ((ensureLookup remote fs).1.lookup ZONE_LOOKUP_FILE).isSome = true := by
  unfold ensureLookup
  by_cases h : (fs.lookup ZONE_LOOKUP_FILE).isSome = true
  · rw [if_pos h]
    exact h
  · rw [if_neg h]
    rw [lookup_cons_self]
    rfl

theorem ensureLookup_preserves (remote : String → Bytes) (fs : FS) (p : String) (b : Bytes)
    (h : fs.lookup p = some b) : (ensureLookup remote fs).1.lookup p = some b := by
  unfold ensureLookup
  by_cases hc : (fs.lookup ZONE_LOOKUP_FILE).isSome = true
  · rw [if_pos hc]
    exact h
  · rw [if_neg hc]
    have hne : p ≠ ZONE_LOOKUP_FILE := fun he => hc (by rw [← he, h]; rfl)
    rw [lookup_cons_ne p _ _ fs hne]
    exact h

theorem ensureLookup_preserves_isSome (remote : String → Bytes) (fs : FS) (p : String)
    (h : (fs.lookup p).isSome = true) :
    ((ensureLookup remote fs).1.lookup p).isSome = true := by
  rcases Option.isSome_iff_exists.mp h with ⟨b, hb⟩
  rw [ensureLookup_preserves remote fs p b hb]
  rfl

theorem ensureLookup_skip (remote : String → Bytes) (fs : FS)
    (h : (fs.lookup ZONE_LOOKUP_FILE).isSome = true) :
    ensureLookup remote fs = (fs, []) := by
  unfold ensureLookup
  rw [if_pos h]

theorem ensureLookup_downloads (remote : String → Bytes) (fs : FS) (u : String)
    (h : Ev.download u ∈ (ensureLookup remote fs).2) : u = ZONE_LOOKUP_URL := by
  unfold ensureLookup at h
  by_cases hc : (fs.lookup ZONE_LOOKUP_FILE).isSome = true
  · rw [if_pos hc] at h
    simp at h
  · rw [if_neg hc] at h
    rcases List.mem_cons.mp h with he | h'
    · simp only [Ev.download.injEq] at he
      exact he
    · simp at h'

theorem load_data_paths (remote : String → Bytes) (months : List String) (fs : FS) :
    (load_data remote months fs).1 = months.map monthDest := by
  simp only [load_data, ensure_local_files]
  exact ensureMonths_paths remote months fs

theorem load_data_fs (remote : String → Bytes) (months : List String) (fs : FS) :
    (load_data remote months fs).2.1 =
      (ensureLookup remote (ensureMonths remote months fs).2.1).1 := by
  simp only [load_data, ensure_local_files]

theorem load_data_trace (remote : String → Bytes) (months : List String) (fs : FS) :
    (load_data remote months fs).2.2 =
      (Ev.mkdir CACHE_DIR :: (ensureMonths remote months fs).2.2) ++
        (ensureLookup remote (ensureMonths remote months fs).2.1).2 := by
  simp only [load_data, ensure_local_files]

theorem load_data_present_month (remote : String → Bytes) (months : List String) (fs : FS)
    (m : String) (hm : m ∈ months) :
    ((load_data remote months fs).2.1.lookup (monthDest m)).isSome = true := by
  rw [load_data_fs]
  exact ensureLookup_preserves_isSome remote _ _ (ensureMonths_present remote months fs m hm)

theorem load_data_present_zone (remote : String → Bytes) (months : List String) (fs : FS) :
    ((load_data remote months fs).2.1.lookup ZONE_LOOKUP_FILE).isSome = true := by
  rw [load_data_fs]
  exact ensureLookup_present remote _

theorem load_data_preserves (remote : String → Bytes) (months : List String) (fs : FS)
    (p : String) (b : Bytes) (h : fs.lookup p = some b) :
    (load_data remote months fs).2.1.lookup p = some b := by
  rw [load_data_fs]
  exact ensureLookup_preserves remote _ p b (ensureMonths_preserves remote months fs p b h)

theorem load_data_eq_of_cached (remote : String → Bytes) (months : List String) (fs : FS)
    (h1 : ∀ m ∈ months, (fs.lookup (monthDest m)).isSome = true)
    (h2 : (fs.lookup ZONE_LOOKUP_FILE).isSome = true) :
    load_data remote months fs = (months.map monthDest, fs, [Ev.mkdir CACHE_DIR]) := by
  simp only [load_data, ensure_local_files]
  rw [ensureMonths_skip remote months fs h1]
  simp only []
  rw [ensureLookup_skip remote fs h2]
  simp

/-- C8: the cache resolver returns exactly one path per requested month; the
resulting store has every requested month file and the lookup file; bytes
already cached are left unchanged; and a month already cached is never
downloaded again. -/
theorem claim_C8_cache_resolver (remote : String → Bytes) (months : List String) (fs : FS) :
    (ensure_local_files remote months fs).1 = months.map monthDest ∧
    (∀ m ∈ months, ((load_data remote months fs).2.1.lookup (monthDest m)).isSome = true) ∧
    ((load_data remote months fs).2.1.lookup ZONE_LOOKUP_FILE).isSome = true ∧
    (∀ p b, fs.lookup p = some b → (load_data remote months fs).2.1.lookup p = some b) ∧
    (∀ m ∈ months, (fs.lookup (monthDest m)).isSome = true →
      Ev.download (monthUrl m) ∉ (load_data remote months fs).2.2) := by
  refine ⟨ensureMonths_paths remote months fs,
    fun m hm => load_data_present_month remote months fs m hm,
    load_data_present_zone remote months fs,
    fun p b h => load_data_preserves remote months fs p b h,
    ?_⟩
  intro m _ hcached hmem
  rw [load_data_trace] at hmem
  rcases List.mem_append.mp hmem with h1 | h1
  · rcases List.mem_cons.mp h1 with he | h1'
    · exact Ev.noConfusion he
    · exact ensureMonths_no_refetch remote months fs m hcached h1'
  · exact monthUrl_ne_zone m (ensureLookup_downloads remote _ _ h1)

/-- Witness for C8 on one month against a store already holding one
unrelated file: that file's bytes survive resolution unchanged. -/
theorem claim_C8_cache_resolver_witness :
    (load_data (fun _ => [7]) ["2025-01"] [("other.txt", [1, 2])]).2.1.lookup "other.txt" =
      some [1, 2] :=
  (claim_C8_cache_resolver (fun _ => [7]) ["2025-01"] [("other.txt", [1, 2])]).2.2.2.1
    "other.txt" [1, 2] (by decide)

/-- C5: rerunning the pipeline on the store the first run left behind
produces the same three aggregate tables (row order included), leaves the
store unchanged, and performs no download. -/
theorem claim_C5_idempotent (remote : String → Bytes) (decT : Bytes → List Trip)
    (decZ : Bytes → List ZoneRow) (months : List String) (fs : FS) :
    (runPipeline remote decT decZ months (runPipeline remote decT decZ months fs).1).2.2 =
      (runPipeline remote decT decZ months fs).2.2 ∧
    (runPipeline remote decT decZ months (runPipeline remote decT decZ months fs).1).1 =
      (runPipeline remote decT decZ months fs).1 ∧
    ∀ u, Ev.download u ∉
      (runPipeline remote decT decZ months (runPipeline remote decT decZ months fs).1).2.1 := by
  have h1 : ∀ m ∈ months,
      (((load_data remote months fs).2.1).lookup (monthDest m)).isSome = true :=
    fun m hm => load_data_present_month remote months fs m hm
  have h2 := load_data_present_zone remote months fs
  have hld2 : load_data remote months ((load_data remote months fs).2.1) =
      (months.map monthDest, (load_data remote months fs).2.1, [Ev.mkdir CACHE_DIR]) :=
    load_data_eq_of_cached remote months _ h1 h2
  have hpaths := load_data_paths remote months fs
  refine ⟨?_, ?_, ?_⟩
  · simp only [runPipeline]
    rw [hld2, hpaths]
  · simp only [runPipeline]
    rw [hld2]
  · intro u hmem
    simp only [runPipeline] at hmem
    rw [hld2] at hmem
    simp at hmem

/-- Witness for C5 at a concrete one-month pipeline over an empty store. -/
theorem claim_C5_idempotent_witness :
    Ev.download "u0" ∉
      (runPipeline (fun _ => []) (fun _ => []) (fun _ => []) ["2025-01"]
        (runPipeline (fun _ => []) (fun _ => []) (fun _ => []) ["2025-01"] []).1).2.1 :=
  (claim_C5_idempotent (fun _ => []) (fun _ => []) (fun _ => []) ["2025-01"] []).2.2 "u0"

/-- C7 (amended): when any resolved month string fails the validation
pattern the program actually applies — four, a dash, two Unicode decimal
digits, Python's `re.fullmatch(r"\d{4}-\d{2}", ...)` — `main` raises the
validation error having performed no I/O event at all.  The claim's
stricter reading (ASCII `YYYY-MM`) is refuted by the counterexample below:
a month written with non-ASCII Unicode digits fails `YYYY-MM` yet passes
validation, and the run proceeds to directory creation and downloads. -/
theorem claim_C7_validation_aborts (remote : String → Bytes) (decT : Bytes → List Trip)
    (decZ : Bytes → List ZoneRow) (render : Dashboard → Bytes)
    (cliMonths : Option (List String)) (output : String) (fs : FS) (m : String)
    (hm : m ∈ resolvedMonths (parse_args cliMonths)) (hbad : monthPattern m = false) :
    (mainRun remote decT decZ render cliMonths output fs).1 = [] ∧
    (mainRun remote decT decZ render cliMonths output fs).2 =
      Except.error "Months must be provided in YYYY-MM format (e.g. 2025-01)." := by
  have hall : (resolvedMonths (parse_args cliMonths)).all monthPattern = false := by
    cases hcond : (resolvedMonths (parse_args cliMonths)).all monthPattern with
    | false => rfl
    | true =>
      have := List.all_eq_true.mp hcond m hm
      rw [hbad] at this
      exact absurd this (by simp)
  constructor <;> simp [mainRun, hall]

/-- Witness for C7 at the malformed month string `"2025/01"`. -/
theorem claim_C7_validation_aborts_witness :
    (mainRun (fun _ => []) (fun _ => []) (fun _ => []) (fun _ => [])
      (some ["2025/01"]) "outputs/dashboard.html" []).1 = [] :=
  (claim_C7_validation_aborts (fun _ => []) (fun _ => []) (fun _ => []) (fun _ => [])
    (some ["2025/01"]) "outputs/dashboard.html" [] "2025/01" (by decide) (by decide)).1

/-- Counterexample to C7 as stated: the month string of Arabic-Indic digits
(code points 1632-1641, category Nd) does not match `YYYY-MM` with ASCII
digits, yet `main` accepts it — Python's `\d` matches any Unicode decimal
digit — performs I/O events (cache-directory creation, downloads, writes)
instead of aborting, and raises no validation error. -/
theorem claim_C7_counterexample :
    asciiMonthPattern "٢٠٢٥-٠١" = false ∧
    monthPattern "٢٠٢٥-٠١" = true ∧
    (mainRun (fun _ => []) (fun _ => []) (fun _ => []) (fun _ => [])
      (some ["٢٠٢٥-٠١"]) "outputs/dashboard.html" []).1 ≠ [] ∧
    ∃ s, (mainRun (fun _ => []) (fun _ => []) (fun _ => []) (fun _ => [])
      (some ["٢٠٢٥-٠١"]) "outputs/dashboard.html" []).2 = Except.ok s :=
  ⟨by decide, by decide, by decide, ⟨_, rfl⟩⟩

/-- C10: an explicitly empty `--months` list falls back to the three
default months and the run still succeeds, behaving exactly as if the
defaults had been requested. -/
theorem claim_C10_default_months (remote : String → Bytes) (decT : Bytes → List Trip)
    (decZ : Bytes → List ZoneRow) (render : Dashboard → Bytes) (output : String) (fs : FS) :
    resolvedMonths (parse_args (some [])) = DEFAULT_MONTHS ∧
    mainRun remote decT decZ render (some []) output fs =
      mainRun remote decT decZ render (some DEFAULT_MONTHS) output fs ∧
    ∃ s, (mainRun remote decT decZ render (some []) output fs).2 = Except.ok s := by
  refine ⟨rfl, rfl, ?_⟩
  have hall : (resolvedMonths (parse_args (some ([] : List String)))).all monthPattern = true := by
    decide
  simp only [mainRun]
  rw [hall]
  exact ⟨_, rfl⟩
